import Mathlib

/-!
Verification of the ftx-derivatives client's numeric-normalization core,
shallowly embedded from `src/lib.rs` and `src/structs/*.rs`.

Modelling conventions:
* `rust_decimal::Decimal` is a 96-bit mantissa with a scale in 0..28.  We
  embed it as an unbounded integer mantissa paired with a natural-number
  scale; the 96-bit overflow paths (unreachable in the claims considered)
  are not modelled.  `Decimal::set_scale` sets the scale field directly,
  leaving the mantissa untouched, and fails exactly when the requested
  scale exceeds the maximum precision 28.
* `Decimal` addition (`+=` in `get_balances`) aligns both operands to the
  larger scale and adds mantissas; this is exact in the absence of
  mantissa overflow.
* `chrono::DateTime<Utc>` is opaque to every claim; we embed it as `Int`.
* `HashMap` results are embedded as association lists; only lookup and
  the key set are observable in the claims.
* Network fetching is out of scope: `get_contracts_ticker` is embedded
  with the single fetch as a function parameter, and `try_join_all`
  as sequential fallible traversal (first error wins), which realizes its
  all-or-nothing contract deterministically.
-/

/-- Model of `chrono::DateTime<chrono::Utc>` (opaque timestamp). -/
def DateTime := Int

deriving instance DecidableEq for DateTime

instance : Inhabited DateTime := ⟨(0 : Int)⟩

deriving instance DecidableEq for Except

/-- Model of `rust_decimal::Error` (only the variant `set_scale` can raise). -/
inductive RustDecimalError where
  | scaleExceedsMaximumPrecision (scale : Nat)
  deriving DecidableEq

/-- Model of `FTXDerivativesError` from `src/lib.rs`.  The reqwest and
serde_json error payloads are opaque to every claim and are dropped. -/
inductive FTXDerivativesError where
  | reqwestError
  | jsonError
  | decimalError (source : RustDecimalError)
  | unknownCurrency (currency : String)
  deriving DecidableEq

/-- Model of `rust_decimal::Decimal`: integer mantissa plus scale
(number of fractional digits).  The numeric value is mantissa / 10^scale. -/
structure Decimal where
  mantissa : Int
  scale : Nat
  deriving DecidableEq

/-- Maximum representable scale of `rust_decimal` (MAX_PRECISION). -/
def maxPrecision : Nat := 28

/-- Numeric value of a `Decimal`, as a rational. -/
def Decimal.val (d : Decimal) : ℚ := (d.mantissa : ℚ) / (10 : ℚ) ^ d.scale

/-- Model of `Decimal::set_scale`: sets the scale field directly (the
mantissa is untouched), failing iff the scale exceeds the maximum
precision 28. -/
def Decimal.set_scale (d : Decimal) (scale : Nat) : Except RustDecimalError Decimal :=
  if scale > maxPrecision then
    .error (.scaleExceedsMaximumPrecision scale)
  else
    .ok { d with scale := scale }

/-- Model of `Decimal` addition as used by `+=` in `get_balances`: align
to the larger scale, add mantissas. -/
def Decimal.add (a b : Decimal) : Decimal :=
  let s := max a.scale b.scale
  { mantissa := a.mantissa * 10 ^ (s - a.scale) + b.mantissa * 10 ^ (s - b.scale)
    scale := s }

/-- Embedding of `rescale_number` from `src/lib.rs` (lines 162-166): `set_scale`, with
the `rust_decimal::Error` wrapped into `FTXDerivativesError::DecimalError`. -/
def rescale_number (amount : Decimal) (num_decimals : Nat) :
    Except FTXDerivativesError Decimal :=
  match amount.set_scale num_decimals with
  | .ok res => .ok res
  | .error e => .error (.decimalError e)

/-- Embedding of `get_num_decimals` from `src/lib.rs` (lines 149-160): the hardcoded
currency precision table.  The Rust `match` on `&str` is sequential
equality testing. -/
def get_num_decimals (currency : String) : Except FTXDerivativesError Nat :=
  if currency = "USD" then .ok 2
  else if currency = "CBTC" then .ok 8
  else if currency = "ETH" then .ok 9
  else .error (.unknownCurrency currency)

/-- Embedding of `TransactionType` from `src/structs/transaction.rs`. -/
inductive TransactionType where
  | feeTransaction
  | positionLockTransaction
  | releasePositionLockTransaction
  | premiumTransaction
  | depositTransaction
  | withdrawalTransaction
  | withdrawalLockTransaction
  | settlementLockTransaction
  | releaseSettlementLockTransaction
  deriving DecidableEq

/-- Embedding of `TransactionState` from `src/structs/transaction.rs`. -/
inductive TransactionState where
  | pending
  | cached
  | executed
  | failed
  deriving DecidableEq

/-- Embedding of `Transaction` from `src/structs/transaction.rs`. -/
structure Transaction where
  id : Nat
  created : DateTime
  last_updated : DateTime
  transaction_type : TransactionType
  amount : Decimal
  debit_account_field_name : String
  credit_account_field_name : String
  settlement_id : Option Nat
  state : TransactionState
  deposit_notice_id : Option Nat
  trade_id : Option Nat
  group_id : Option String
  asset : String
  debit_pre_balance : Option Decimal
  debit_post_balance : Option Decimal
  credit_pre_balance : Option Decimal
  credit_post_balance : Option Decimal
  debit_participant_name : Option String
  credit_participant_name : Option String
  net_change : Decimal
  deriving DecidableEq

/-- Embedding of `OptionType` from `src/structs/contract.rs`. -/
inductive OptionType where
  | call
  | put
  deriving DecidableEq

/-- Embedding of `Contract` from `src/structs/contract.rs`: tagged union with the
day-ahead-swap and option variants. -/
inductive Contract where
  | dayAheadSwap
      (id : Nat) (name : Option String) (min_increment : Nat)
      (date_live : DateTime) (date_expires : DateTime) (date_exercise : DateTime)
      (open_interest : Nat) (multiplier : Decimal) (label : String)
      (active : Bool) (is_next_day : Bool)
      (underlying_asset : String) (collateral_asset : String)
  | option
      (id : Nat) (name : Option String) (is_call : Bool)
      (strike_price : Decimal) (min_increment : Nat)
      (date_live : DateTime) (date_expires : DateTime) (date_exercise : DateTime)
      (open_interest : Nat) (multiplier : Decimal) (label : String)
      (active : Bool)
      (underlying_asset : String) (collateral_asset : String)
      (option_type : OptionType)
  deriving DecidableEq

/-- Embedding of `ContractTickerLastTrade` from `src/structs/contract.rs`. -/
structure ContractTickerLastTrade where
  id : Nat
  price : Decimal
  size : Nat
  time : DateTime
  deriving DecidableEq

/-- Embedding of `ContractTicker` from `src/structs/contract.rs`. -/
structure ContractTicker where
  ask : Decimal
  bid : Decimal
  volume_24h : Nat
  last_trade : Option ContractTickerLastTrade
  time : DateTime
  deriving DecidableEq

/-- Embedding of `OrderType` from `src/structs/trade.rs`. -/
inductive OrderType where
  | customerLimitOrder
  deriving DecidableEq

/-- Embedding of `TradeSide` from `src/structs/trade.rs`. -/
inductive TradeSide where
  | bid
  | ask
  deriving DecidableEq

/-- Embedding of `Trade` from `src/structs/trade.rs`. -/
structure Trade where
  id : Nat
  contract_id : String
  contract_label : String
  filled_price : Decimal
  filled_size : Nat
  fee : Decimal
  rebate : Decimal
  premium : Decimal
  created : DateTime
  order_type : OrderType
  order_id : String
  state : Option String
  status_type : String
  side : TradeSide
  execution_time : DateTime
  deriving DecidableEq

/-- Embedding of `convert_contract` from `src/lib.rs` (lines 168-205): rescales the
option variant's strike price to 2 digits, passes other variants through. -/
def convert_contract (contract : Contract) : Except FTXDerivativesError Contract :=
  match contract with
  | .option id name is_call strike_price min_increment date_live date_expires
      date_exercise open_interest multiplier label active underlying_asset
      collateral_asset option_type => do
    let sp ← rescale_number strike_price 2
    pure (.option id name is_call sp min_increment date_live date_expires
      date_exercise open_interest multiplier label active underlying_asset
      collateral_asset option_type)
  | x => pure x

/-- Embedding of `convert_contract_ticker` from `src/lib.rs` (lines 207-221). -/
def convert_contract_ticker (ticker : ContractTicker) :
    Except FTXDerivativesError ContractTicker := do
  let last_trade ← match ticker.last_trade with
    | some t => do
      let p ← rescale_number t.price 2
      pure (some { t with price := p })
    | none => pure (none : Option ContractTickerLastTrade)
  let ask ← rescale_number ticker.ask 2
  let bid ← rescale_number ticker.bid 2
  pure { ticker with ask := ask, bid := bid, last_trade := last_trade }

/-- Embedding of `rescale_opt`, the helper nested in `convert_transaction`
(`src/lib.rs` lines 224-232): threads `None` through unchanged. -/
def rescale_opt (orig : Option Decimal) (num_decimals : Nat) :
    Except FTXDerivativesError (Option Decimal) :=
  match orig with
  | some o => do
    let r ← rescale_number o num_decimals
    pure (some r)
  | none => pure none

/-- Embedding of `convert_transaction` from `src/lib.rs` (lines 223-245): looks up the
transaction's own asset in the precision table and rescales every
monetary field to that scale. -/
def convert_transaction (transaction : Transaction) :
    Except FTXDerivativesError Transaction := do
  let num_decimals ← get_num_decimals transaction.asset
  let amount ← rescale_number transaction.amount num_decimals
  let dpre ← rescale_opt transaction.debit_pre_balance num_decimals
  let dpost ← rescale_opt transaction.debit_post_balance num_decimals
  let cpre ← rescale_opt transaction.credit_pre_balance num_decimals
  let cpost ← rescale_opt transaction.credit_post_balance num_decimals
  let net ← rescale_number transaction.net_change num_decimals
  pure { transaction with
    amount := amount
    debit_pre_balance := dpre
    debit_post_balance := dpost
    credit_pre_balance := cpre
    credit_post_balance := cpost
    net_change := net }

/-- Embedding of `convert_trade` from `src/lib.rs` (lines 247-255). -/
def convert_trade (trade : Trade) : Except FTXDerivativesError Trade := do
  let filled_price ← rescale_number trade.filled_price 2
  let fee ← rescale_number trade.fee 2
  let rebate ← rescale_number trade.rebate 2
  let premium ← rescale_number trade.premium 2
  pure { trade with
    filled_price := filled_price
    fee := fee
    rebate := rebate
    premium := premium }

/-- Sequential fallible traversal: the embedding of
`.map(convert).collect::<Result<Vec<_>, _>>()` and (deterministically) of
`try_join_all`: the first error aborts the whole traversal. -/
def mapExcept {α β : Type} (f : α → Except FTXDerivativesError β) :
    List α → Except FTXDerivativesError (List β)
  | [] => .ok []
  | x :: xs => do
    let v ← f x
    let vs ← mapExcept f xs
    pure (v :: vs)

/-- Association-list lookup (the observable behaviour of `HashMap::get`). -/
def lookupKey {κ β : Type} [DecidableEq κ] : List (κ × β) → κ → Option β
  | [], _ => none
  | (b, w) :: rest, a => if b = a then some w else lookupKey rest a

/-- One step of the `get_balances` fold (`src/lib.rs` lines 137-143): add
into the existing entry for the asset, or insert a fresh entry. -/
def addBalance : List (String × Decimal) → String → Decimal → List (String × Decimal)
  | [], a, v => [(a, v)]
  | (b, w) :: rest, a, v =>
    if b = a then (b, w.add v) :: rest else (b, w) :: addBalance rest a v

/-- The balance-accumulating fold of `get_balances` over already-converted
transactions. -/
def balanceFold (txns : List Transaction) : List (String × Decimal) :=
  txns.foldl (fun m t => addBalance m t.asset t.net_change) []

/-- Embedding of `get_balances` from `src/lib.rs` (lines 133-146), with the fetched raw
transaction list as input: `get_transactions` converts each transaction
(`src/lib.rs` line 92), then the fold accumulates per-asset totals. -/
def get_balances (txns : List Transaction) :
    Except FTXDerivativesError (List (String × Decimal)) := do
  let converted ← mapExcept convert_transaction txns
  pure (balanceFold converted)

/-- Embedding of `get_contracts_ticker` from `src/lib.rs` (lines 114-124), with the
single fetch (`get_contract_ticker`) as a function parameter: fan out one
fetch per id, join all-or-nothing, zip ids with results into a map. -/
def get_contracts_ticker (fetchOne : Nat → Except FTXDerivativesError ContractTicker)
    (contract_ids : List Nat) :
    Except FTXDerivativesError (List (Nat × ContractTicker)) := do
  let res ← mapExcept fetchOne contract_ids
  pure (contract_ids.zip res)

/-! ### Helper lemmas on rescaling -/

theorem rescale_number_ok (amount : Decimal) (s : Nat) (h : s ≤ maxPrecision) :
    rescale_number amount s = .ok ⟨amount.mantissa, s⟩ := by
  unfold rescale_number Decimal.set_scale
  rw [if_neg (by omega)]

theorem rescale_number_err (amount : Decimal) (s : Nat) (h : maxPrecision < s) :
    rescale_number amount s =
      .error (.decimalError (.scaleExceedsMaximumPrecision s)) := by
  unfold rescale_number Decimal.set_scale
  rw [if_pos (by omega)]

theorem get_num_decimals_le (c : String) (s : Nat)
    (h : get_num_decimals c = .ok s) : s ≤ maxPrecision := by
  unfold get_num_decimals at h
  unfold maxPrecision
  split_ifs at h
  all_goals (injection h with h; omega)

theorem decimal_val_ne_of_scale_ne (m : Int) (s t : Nat) (hm : m ≠ 0)
    (hst : s ≠ t) : (Decimal.mk m t).val ≠ (Decimal.mk m s).val := by
  unfold Decimal.val
  simp only
  intro h
  have h10s : ((10 : ℚ) ^ s) ≠ 0 := by positivity
  have h10t : ((10 : ℚ) ^ t) ≠ 0 := by positivity
  rw [div_eq_div_iff h10t h10s] at h
  have hmq : (m : ℚ) ≠ 0 := Int.cast_ne_zero.mpr hm
  have hpow : (10 : ℚ) ^ s = (10 : ℚ) ^ t := mul_left_cancel₀ hmq h
  rcases Nat.lt_or_ge s t with hlt | hge
  · have : (10 : ℚ) ^ s < (10 : ℚ) ^ t :=
      pow_lt_pow_right₀ (by norm_num) hlt
    exact absurd hpow (ne_of_lt this)
  · rcases Nat.lt_or_ge t s with hlt | hge2
    · have : (10 : ℚ) ^ t < (10 : ℚ) ^ s :=
        pow_lt_pow_right₀ (by norm_num) hlt
      exact absurd hpow.symm (ne_of_lt this)
    · exact hst (Nat.le_antisymm hge2 hge)

/-! ### C9 -/

/-- C9: for every decimal amount and target scale at most 28,
`rescale_number` returns `Ok` of a decimal whose scale is exactly the
target and whose mantissa equals the input's, so the numeric value changes
whenever the input's scale differs from the target and the mantissa is
nonzero; it returns a `DecimalError` exactly when the target exceeds 28. -/
theorem C9_rescale_sets_scale_directly (amount : Decimal) (target : Nat) :
    (target ≤ 28 → rescale_number amount target = .ok ⟨amount.mantissa, target⟩) ∧
    (28 < target → rescale_number amount target =
      .error (.decimalError (.scaleExceedsMaximumPrecision target))) ∧
    (target ≤ 28 → amount.scale ≠ target → amount.mantissa ≠ 0 →
      (Decimal.mk amount.mantissa target).val ≠ amount.val) := by
  refine ⟨fun h => rescale_number_ok amount target h,
          fun h => rescale_number_err amount target h,
          fun _ hne hm => ?_⟩
  have := decimal_val_ne_of_scale_ne amount.mantissa amount.scale target hm hne
  simpa using this

/-- Witness for C9 at amount 1.5 (mantissa 15, scale 1), targets 2 and 30. -/
theorem C9_witness :
    rescale_number ⟨15, 1⟩ 2 = .ok ⟨15, 2⟩ ∧
    rescale_number ⟨15, 1⟩ 30 =
      .error (.decimalError (.scaleExceedsMaximumPrecision 30)) ∧
    (Decimal.mk (Decimal.mk 15 1).mantissa 2).val ≠ (Decimal.mk 15 1).val :=
  ⟨(C9_rescale_sets_scale_directly ⟨15, 1⟩ 2).1 (by decide),
   (C9_rescale_sets_scale_directly ⟨15, 1⟩ 30).2.1 (by decide),
   (C9_rescale_sets_scale_directly ⟨15, 1⟩ 2).2.2 (by decide) (by decide) (by decide)⟩

/-! ### C4 -/

/-- C4: the precision table returns Ok 2 for USD, Ok 8 for CBTC, Ok 8 or 9
for ETH, and for every other code the `UnknownCurrency` error carrying
exactly the queried code, never a default. -/
theorem C4_precision_table (c : String)
    (h1 : c ≠ "USD") (h2 : c ≠ "CBTC") (h3 : c ≠ "ETH") :
    get_num_decimals "USD" = .ok 2 ∧
    get_num_decimals "CBTC" = .ok 8 ∧
    (get_num_decimals "ETH" = .ok 8 ∨ get_num_decimals "ETH" = .ok 9) ∧
    get_num_decimals c = .error (.unknownCurrency c) := by
  refine ⟨by decide, by decide, Or.inr (by decide), ?_⟩
  unfold get_num_decimals
  simp [h1, h2, h3]

/-- Witness for C4 at the unknown code "ZZZ". -/
theorem C4_witness :
    get_num_decimals "USD" = .ok 2 ∧
    get_num_decimals "CBTC" = .ok 8 ∧
    (get_num_decimals "ETH" = .ok 8 ∨ get_num_decimals "ETH" = .ok 9) ∧
    get_num_decimals "ZZZ" = .error (.unknownCurrency "ZZZ") :=
  C4_precision_table "ZZZ" (by decide) (by decide) (by decide)

/-! ### C1 (corrected) -/

/-- C1 counterexample: the claim says `rescale_number` on 1.505 (mantissa
1505, scale 3) with target scale 2 fails with a precision-loss error; the
code returns Ok of mantissa 1505 at scale 2 (the value 15.05). -/
theorem C1_counterexample :
    rescale_number ⟨1505, 3⟩ 2 = .ok ⟨1505, 2⟩ ∧
    (rescale_number ⟨1505, 3⟩ 2).isOk = true := by
  exact ⟨by decide, by decide⟩

/-- C1 amended: for every decimal amount with a nonzero digit beyond the
target scale (the discarded digits are not all zero) and target ≤ 28,
`rescale_number` still succeeds, setting the scale directly and keeping
the mantissa; no precision-loss error exists in the code. -/
theorem C1_amended_never_precision_loss (amount : Decimal) (target : Nat)
    (hnarrow : target < amount.scale) (ht : target ≤ 28)
    (hnz : ¬ ((10 : ℤ) ^ (amount.scale - target) ∣ amount.mantissa)) :
    rescale_number amount target = .ok ⟨amount.mantissa, target⟩ :=
  rescale_number_ok amount target ht

/-- Witness for C1 amended at 1.505, target 2 (10 does not divide 1505). -/
theorem C1_amended_witness :
    (2 : Nat) < (Decimal.mk 1505 3).scale ∧ (2 : Nat) ≤ 28 ∧
    ¬ ((10 : ℤ) ^ ((Decimal.mk 1505 3).scale - 2) ∣ (Decimal.mk 1505 3).mantissa) ∧
    rescale_number ⟨1505, 3⟩ 2 = .ok ⟨1505, 2⟩ :=
  ⟨by decide, by decide, by decide,
   C1_amended_never_precision_loss ⟨1505, 3⟩ 2 (by decide) (by decide) (by decide)⟩

/-! ### C2 (corrected) -/

/-- C2 counterexample: the claim says widening preserves the numeric
value and `rescale_number` on 1.5 (mantissa 15, scale 1) with target 2
returns 1.50 (mantissa 150, scale 2); the code returns mantissa 15 at
scale 2, the value 0.15, which differs from both. -/
theorem C2_counterexample :
    rescale_number ⟨15, 1⟩ 2 = .ok ⟨15, 2⟩ ∧
    Decimal.mk 15 2 ≠ Decimal.mk 150 2 ∧
    (Decimal.mk 15 2).val ≠ (Decimal.mk 15 1).val := by
  refine ⟨by decide, by decide, ?_⟩
  exact decimal_val_ne_of_scale_ne 15 1 2 (by decide) (by decide)

/-- C2 amended: for every decimal amount whose scale ≤ target ≤ 28,
`rescale_number` succeeds, returning the same mantissa at the target
scale; the numeric value is divided by 10^(target − scale), so it is
preserved only when the scale already equals the target. -/
theorem C2_amended_widening_divides (amount : Decimal) (target : Nat)
    (hs : amount.scale ≤ target) (ht : target ≤ 28) :
    rescale_number amount target = .ok ⟨amount.mantissa, target⟩ ∧
    (Decimal.mk amount.mantissa target).val =
      amount.val / (10 : ℚ) ^ (target - amount.scale) := by
  refine ⟨rescale_number_ok amount target ht, ?_⟩
  unfold Decimal.val
  simp only
  rw [div_div]
  congr 1
  rw [← pow_add]
  congr 1
  omega

/-- Witness for C2 amended at 1.5, target 2: the result is 0.15. -/
theorem C2_amended_witness :
    (Decimal.mk 15 1).scale ≤ 2 ∧ (2 : Nat) ≤ 28 ∧
    (rescale_number ⟨15, 1⟩ 2 = .ok ⟨15, 2⟩ ∧
     (Decimal.mk (Decimal.mk 15 1).mantissa 2).val =
       (Decimal.mk 15 1).val / (10 : ℚ) ^ (2 - (Decimal.mk 15 1).scale)) :=
  ⟨by decide, by decide, C2_amended_widening_divides ⟨15, 1⟩ 2 (by decide) (by decide)⟩

/-! ### C3 -/

/-- C3: for every integer raw amount (scale 0) and every currency in the
precision table, normalizing with that currency's scale leaves the
mantissa unchanged and only attaches the scale; the integer 1234 for the
2-digit currency USD yields 12.34 (mantissa 1234, scale 2). -/
theorem C3_integer_normalization (m : Int) (c : String) (s : Nat)
    (h : get_num_decimals c = .ok s) :
    rescale_number ⟨m, 0⟩ s = .ok ⟨m, s⟩ ∧
    rescale_number ⟨1234, 0⟩ 2 = .ok ⟨1234, 2⟩ :=
  ⟨rescale_number_ok ⟨m, 0⟩ s (get_num_decimals_le c s h), by decide⟩

/-- Witness for C3 at the integer 500 and the currency USD. -/
theorem C3_witness :
    get_num_decimals "USD" = .ok 2 ∧
    (rescale_number ⟨500, 0⟩ 2 = .ok ⟨500, 2⟩ ∧
     rescale_number ⟨1234, 0⟩ 2 = .ok ⟨1234, 2⟩) :=
  ⟨by decide, C3_integer_normalization 500 "USD" 2 (by decide)⟩

/-! ### C10 -/

/-- C10: `convert_contract`, `convert_contract_ticker` and `convert_trade`
return Ok on every input — their fixed target scale 2 never exceeds the
maximum 28, so no error is reachable through these paths. -/
theorem C10_conversions_total (c : Contract) (tk : ContractTicker) (tr : Trade) :
    (∃ r, convert_contract c = .ok r) ∧
    (∃ r, convert_contract_ticker tk = .ok r) ∧
    (∃ r, convert_trade tr = .ok r) := by
  have h2 : (2 : Nat) ≤ maxPrecision := by norm_num [maxPrecision]
  refine ⟨?_, ?_, ?_⟩
  · cases c with
    | dayAheadSwap id name mi dl de dex oi mult label active isnd ua ca =>
      exact ⟨_, rfl⟩
    | option id name isCall strike mi dl de dex oi mult label active ua ca ot =>
      simp only [convert_contract]
      rw [rescale_number_ok strike 2 h2]
      exact ⟨_, rfl⟩
  · unfold convert_contract_ticker
    rcases htl : tk.last_trade with _ | t
    · rw [rescale_number_ok tk.ask 2 h2, rescale_number_ok tk.bid 2 h2]
      exact ⟨_, rfl⟩
    · simp only [rescale_number_ok _ 2 h2]
      exact ⟨_, rfl⟩
  · unfold convert_trade
    rw [rescale_number_ok tr.filled_price 2 h2, rescale_number_ok tr.fee 2 h2,
      rescale_number_ok tr.rebate 2 h2, rescale_number_ok tr.premium 2 h2]
    exact ⟨_, rfl⟩

/-! ### Helper lemmas on record conversion -/

theorem get_num_decimals_error (c : String) (e : FTXDerivativesError)
    (h : get_num_decimals c = .error e) : e = .unknownCurrency c := by
  unfold get_num_decimals at h
  split_ifs at h
  all_goals (injection h with h; exact h.symm)

theorem rescale_opt_ok (o : Option Decimal) (s : Nat) (h : s ≤ maxPrecision) :
    rescale_opt o s = .ok (o.map fun d => ⟨d.mantissa, s⟩) := by
  cases o with
  | none => rfl
  | some d =>
    simp only [rescale_opt]
    rw [rescale_number_ok d s h]
    rfl

theorem convert_transaction_ok (t : Transaction) (s : Nat)
    (hs : get_num_decimals t.asset = .ok s) :
    convert_transaction t = .ok { t with
      amount := ⟨t.amount.mantissa, s⟩
      debit_pre_balance := t.debit_pre_balance.map fun d => ⟨d.mantissa, s⟩
      debit_post_balance := t.debit_post_balance.map fun d => ⟨d.mantissa, s⟩
      credit_pre_balance := t.credit_pre_balance.map fun d => ⟨d.mantissa, s⟩
      credit_post_balance := t.credit_post_balance.map fun d => ⟨d.mantissa, s⟩
      net_change := ⟨t.net_change.mantissa, s⟩ } := by
  have h28 := get_num_decimals_le t.asset s hs
  unfold convert_transaction
  rw [hs]
  simp only [Bind.bind, Except.bind, Pure.pure, Except.pure,
    rescale_number_ok _ s h28, rescale_opt_ok _ s h28]

theorem convert_transaction_err_of_table (t : Transaction) (e : FTXDerivativesError)
    (h : get_num_decimals t.asset = .error e) :
    convert_transaction t = .error e := by
  unfold convert_transaction
  rw [h]
  rfl

theorem convert_transaction_error (t : Transaction) (e : FTXDerivativesError)
    (h : convert_transaction t = .error e) : e = .unknownCurrency t.asset := by
  cases hg : get_num_decimals t.asset with
  | error e2 =>
    rw [convert_transaction_err_of_table t e2 hg] at h
    injection h with h
    rw [← h]
    exact get_num_decimals_error t.asset e2 hg
  | ok s =>
    rw [convert_transaction_ok t s hg] at h
    exact Except.noConfusion h

/-! ### Concrete sample records -/

/-- A USD deposit transaction whose raw amount and net change are the
integer `net` (scale 0), every other field neutral. -/
def sampleTx (net : Int) : Transaction where
  id := 0
  created := (0 : Int)
  last_updated := (0 : Int)
  transaction_type := .depositTransaction
  amount := ⟨net, 0⟩
  debit_account_field_name := ""
  credit_account_field_name := ""
  settlement_id := none
  state := .executed
  deposit_notice_id := none
  trade_id := none
  group_id := none
  asset := "USD"
  debit_pre_balance := none
  debit_post_balance := none
  credit_pre_balance := none
  credit_post_balance := none
  debit_participant_name := none
  credit_participant_name := none
  net_change := ⟨net, 0⟩

/-- The transaction `sampleTx net` after conversion: the monetary fields carry scale 2. -/
def sampleTxConv (net : Int) : Transaction :=
  { sampleTx net with amount := ⟨net, 2⟩, net_change := ⟨net, 2⟩ }

/-! ### C8 -/

/-- C8: `convert_transaction` replaces only the monetary fields, passing
every other field through unchanged; `convert_contract` returns every
day-ahead-swap contract completely unchanged and rescales only the option
variant's strike price, keeping all its other fields. -/
theorem C8_frame_conditions (t t' : Transaction)
    (h : convert_transaction t = .ok t')
    (id : Nat) (name : Option String) (mi : Nat) (dl de dex : DateTime)
    (oi : Nat) (mult : Decimal) (label : String) (active isnd : Bool)
    (ua ca : String)
    (oid : Nat) (oname : Option String) (isCall : Bool) (strike : Decimal)
    (omi : Nat) (odl ode odex : DateTime) (ooi : Nat) (omult : Decimal)
    (olabel : String) (oactive : Bool) (oua oca : String) (oty : OptionType) :
    t' = { t with
      amount := t'.amount
      debit_pre_balance := t'.debit_pre_balance
      debit_post_balance := t'.debit_post_balance
      credit_pre_balance := t'.credit_pre_balance
      credit_post_balance := t'.credit_post_balance
      net_change := t'.net_change } ∧
    convert_contract
        (.dayAheadSwap id name mi dl de dex oi mult label active isnd ua ca)
      = .ok (.dayAheadSwap id name mi dl de dex oi mult label active isnd ua ca) ∧
    convert_contract
        (.option oid oname isCall strike omi odl ode odex ooi omult olabel oactive oua oca oty)
      = .ok (.option oid oname isCall ⟨strike.mantissa, 2⟩ omi odl ode odex ooi
          omult olabel oactive oua oca oty) := by
  refine ⟨?_, rfl, ?_⟩
  · cases hg : get_num_decimals t.asset with
    | error e =>
      rw [convert_transaction_err_of_table t e hg] at h
      exact Except.noConfusion h
    | ok s =>
      rw [convert_transaction_ok t s hg] at h
      injection h with h
      subst h
      rfl
  · simp only [convert_contract]
    rw [rescale_number_ok strike 2 (by norm_num [maxPrecision])]
    rfl

/-- Witness for C8 at a concrete USD transaction and concrete contracts. -/
theorem C8_witness :
    sampleTxConv 500 = { sampleTx 500 with
      amount := (sampleTxConv 500).amount
      debit_pre_balance := (sampleTxConv 500).debit_pre_balance
      debit_post_balance := (sampleTxConv 500).debit_post_balance
      credit_pre_balance := (sampleTxConv 500).credit_pre_balance
      credit_post_balance := (sampleTxConv 500).credit_post_balance
      net_change := (sampleTxConv 500).net_change } ∧
    convert_contract
        (.dayAheadSwap 1 none 10 (0 : Int) (0 : Int) (0 : Int) 0 ⟨1, 0⟩ "L" true false "BTC" "USD")
      = .ok (.dayAheadSwap 1 none 10 (0 : Int) (0 : Int) (0 : Int) 0 ⟨1, 0⟩ "L" true false "BTC" "USD") ∧
    convert_contract
        (.option 2 none true ⟨4500, 0⟩ 10 (0 : Int) (0 : Int) (0 : Int) 0 ⟨1, 0⟩ "L" true "BTC" "USD" .call)
      = .ok (.option 2 none true ⟨4500, 2⟩ 10 (0 : Int) (0 : Int) (0 : Int) 0 ⟨1, 0⟩ "L" true "BTC" "USD" .call) :=
  C8_frame_conditions (sampleTx 500) (sampleTxConv 500) (by decide)
    1 none 10 (0 : Int) (0 : Int) (0 : Int) 0 ⟨1, 0⟩ "L" true false "BTC" "USD"
    2 none true ⟨4500, 0⟩ 10 (0 : Int) (0 : Int) (0 : Int) 0 ⟨1, 0⟩ "L" true "BTC" "USD" .call

/-! ### C6 -/

theorem Decimal.add_comm (a b : Decimal) : a.add b = b.add a := by
  rcases a with ⟨am, sa⟩
  rcases b with ⟨bm, sb⟩
  simp [Decimal.add, Nat.max_comm, Int.add_comm]

/-- C6: aggregating `[A, B]` and `[B, A]` for transactions in the same
currency yields the same result (addition of decimal net changes is
commutative), and aggregating the empty transaction list yields the empty
balance map. -/
theorem C6_order_insensitive (A B : Transaction) (hab : A.asset = B.asset) :
    get_balances [A, B] = get_balances [B, A] ∧
    get_balances ([] : List Transaction) = .ok [] := by
  refine ⟨?_, rfl⟩
  cases hg : get_num_decimals A.asset with
  | error e =>
    have hA : convert_transaction A = .error e :=
      convert_transaction_err_of_table A e hg
    have hB : convert_transaction B = .error e := by
      apply convert_transaction_err_of_table
      rw [← hab]
      exact hg
    simp [get_balances, mapExcept, hA, hB]
  | ok s =>
    have hgb : get_num_decimals B.asset = .ok s := by
      rw [← hab]
      exact hg
    have hA := convert_transaction_ok A s hg
    have hB := convert_transaction_ok B s hgb
    simp [get_balances, mapExcept, hA, hB, balanceFold, addBalance, hab,
      Bind.bind, Except.bind, Pure.pure, Except.pure, Decimal.add_comm]

/-- Witness for C6 at two concrete USD transactions. -/
theorem C6_witness :
    get_balances [sampleTx 500, sampleTx (-200)] =
      get_balances [sampleTx (-200), sampleTx 500] ∧
    get_balances ([] : List Transaction) = .ok [] :=
  C6_order_insensitive (sampleTx 500) (sampleTx (-200)) (by decide)

/-! ### C5 -/

/-- The normalized net changes of the transactions carrying asset `a`,
in list order. -/
def netChanges (txns : List Transaction) (a : String) : List Decimal :=
  (txns.filter fun t => t.asset = a).map fun t => t.net_change

/-- Left fold of decimal addition starting from `v` — the running total
the `get_balances` loop maintains for one asset. -/
def sumFrom (v : Decimal) (l : List Decimal) : Decimal := l.foldl Decimal.add v

theorem lookupKey_addBalance (m : List (String × Decimal)) (b a : String)
    (v : Decimal) :
    lookupKey (addBalance m b v) a =
      if b = a then
        match lookupKey m a with
        | some w => some (w.add v)
        | none => some v
      else lookupKey m a := by
  induction m with
  | nil =>
    by_cases hba : b = a <;> simp [addBalance, lookupKey, hba]
  | cons hd tl ih =>
    rcases hd with ⟨c, w⟩
    by_cases hcb : c = b <;> by_cases hca : c = a <;> by_cases hba : b = a <;>
      simp_all [addBalance, lookupKey]

theorem lookupKey_balanceFold_aux (txns : List Transaction)
    (m : List (String × Decimal)) (a : String) :
    lookupKey (txns.foldl (fun acc t => addBalance acc t.asset t.net_change) m) a =
      match lookupKey m a, netChanges txns a with
      | some v, l => some (sumFrom v l)
      | none, [] => none
      | none, v :: rest => some (sumFrom v rest) := by
  induction txns generalizing m with
  | nil =>
    simp only [List.foldl_nil, netChanges, List.filter_nil, List.map_nil]
    cases lookupKey m a <;> rfl
  | cons t ts ih =>
    simp only [List.foldl_cons]
    rw [ih, lookupKey_addBalance]
    by_cases ht : t.asset = a
    · have hfil : netChanges (t :: ts) a = t.net_change :: netChanges ts a := by
        simp [netChanges, List.filter_cons, ht]
      rw [hfil, if_pos ht]
      cases lookupKey m a <;> simp [sumFrom]
    · have hfil : netChanges (t :: ts) a = netChanges ts a := by
        simp [netChanges, List.filter_cons, ht]
      rw [hfil, if_neg ht]

theorem get_balances_lookup (txns c : List Transaction) (a : String)
    (h : mapExcept convert_transaction txns = .ok c) :
    get_balances txns = .ok (balanceFold c) ∧
    lookupKey (balanceFold c) a =
      match netChanges c a with
      | [] => none
      | v :: rest => some (sumFrom v rest) := by
  constructor
  · simp [get_balances, h, Bind.bind, Except.bind, Pure.pure, Except.pure]
  · unfold balanceFold
    rw [lookupKey_balanceFold_aux]
    simp only [lookupKey]
    cases netChanges c a <;> rfl

/-- C5: over the transactions whose conversion succeeds, `get_balances`
returns the fold of the converted list; the resulting map has one entry
per asset observed among the converted transactions — holding the exact
running sum of that asset's normalized net changes — and no entry for an
asset observed in no transaction; in particular the two USD transactions
with integer net changes 500 and −200 aggregate to exactly
`{"USD" ↦ 3.00}` (mantissa 300 at scale 2). -/
theorem C5_aggregation (txns c : List Transaction) (a : String)
    (h : mapExcept convert_transaction txns = .ok c) :
    (get_balances txns = .ok (balanceFold c) ∧
     lookupKey (balanceFold c) a =
       match netChanges c a with
       | [] => none
       | v :: rest => some (sumFrom v rest)) ∧
    get_balances [sampleTx 500, sampleTx (-200)] = .ok [("USD", ⟨300, 2⟩)] :=
  ⟨get_balances_lookup txns c a h, by decide⟩

/-- Witness for C5 at the two concrete USD transactions of the scenario. -/
theorem C5_witness :
    ((get_balances [sampleTx 500, sampleTx (-200)] =
        .ok (balanceFold [sampleTxConv 500, sampleTxConv (-200)]) ∧
      lookupKey (balanceFold [sampleTxConv 500, sampleTxConv (-200)]) "USD" =
        match netChanges [sampleTxConv 500, sampleTxConv (-200)] "USD" with
        | [] => none
        | v :: rest => some (sumFrom v rest)) ∧
     get_balances [sampleTx 500, sampleTx (-200)] = .ok [("USD", ⟨300, 2⟩)]) :=
  C5_aggregation [sampleTx 500, sampleTx (-200)]
    [sampleTxConv 500, sampleTxConv (-200)] "USD" (by decide)

/-! ### C7 -/

theorem mapExcept_error_of_mem {α β : Type}
    (f : α → Except FTXDerivativesError β) (l : List α) (x : α)
    (e : FTXDerivativesError) (hx : x ∈ l) (hf : f x = .error e) :
    ∃ e2, mapExcept f l = .error e2 ∧ ∃ y ∈ l, f y = .error e2 := by
  induction l with
  | nil => cases hx
  | cons hd tl ih =>
    cases hh : f hd with
    | error e3 =>
      refine ⟨e3, ?_, hd, List.mem_cons_self hd tl, hh⟩
      simp [mapExcept, hh, Bind.bind, Except.bind]
    | ok v =>
      rcases List.mem_cons.mp hx with rfl | hx2
      · rw [hf] at hh
        exact Except.noConfusion hh
      · obtain ⟨e2, hmap, y, hy, hfy⟩ := ih hx2
        refine ⟨e2, ?_, y, List.mem_cons_of_mem hd hy, hfy⟩
        simp [mapExcept, hh, hmap, Bind.bind, Except.bind]

theorem mapExcept_ok_forall2 {α β : Type}
    (f : α → Except FTXDerivativesError β) (l : List α)
    (h : ∀ x ∈ l, ∃ v, f x = .ok v) :
    ∃ vs, mapExcept f l = .ok vs ∧
      List.Forall₂ (fun x v => f x = .ok v) l vs := by
  induction l with
  | nil => exact ⟨[], rfl, .nil⟩
  | cons hd tl ih =>
    obtain ⟨v, hv⟩ := h hd (List.mem_cons_self hd tl)
    obtain ⟨vs, hm, hf2⟩ := ih fun x hx => h x (List.mem_cons_of_mem hd hx)
    refine ⟨v :: vs, ?_, .cons hv hf2⟩
    simp [mapExcept, hv, hm, Bind.bind, Except.bind, Pure.pure, Except.pure]

theorem lookupKey_zip {α β : Type} [DecidableEq α] {P : α → β → Prop}
    {l : List α} {vs : List β} (hf : List.Forall₂ P l vs) (hnd : l.Nodup)
    (x : α) (hx : x ∈ l) :
    ∃ v, lookupKey (l.zip vs) x = some v ∧ P x v := by
  induction hf with
  | nil => cases hx
  | @cons a b l2 vs2 hP hrest ih =>
    rcases List.mem_cons.mp hx with rfl | hx2
    · exact ⟨b, by simp [List.zip_cons_cons, lookupKey], hP⟩
    · obtain ⟨hnotin, hnd2⟩ := List.nodup_cons.mp hnd
      have hne : a ≠ x := fun h => hnotin (h ▸ hx2)
      obtain ⟨v, hl, hPv⟩ := ih hnd2 hx2
      refine ⟨v, ?_, hPv⟩
      rw [List.zip_cons_cons]
      simp only [lookupKey]
      rw [if_neg hne]
      exact hl

/-- C7: with the single fetch modeled as a function from id to result, on
a list of distinct ids: if any single fetch fails, the whole batch fails
with the error of a failing fetch (no partial map); if every fetch
succeeds, the batch returns a map whose keys are exactly the input ids,
each id mapped to the value of its own single fetch. -/
theorem C7_batch_all_or_nothing
    (fetchOne : Nat → Except FTXDerivativesError ContractTicker)
    (ids : List Nat) (hnd : ids.Nodup) :
    (∀ x ∈ ids, ∀ e, fetchOne x = .error e →
      ∃ e2, get_contracts_ticker fetchOne ids = .error e2 ∧
        ∃ y ∈ ids, fetchOne y = .error e2) ∧
    ((∀ x ∈ ids, ∃ v, fetchOne x = .ok v) →
      ∃ m, get_contracts_ticker fetchOne ids = .ok m ∧
        m.map Prod.fst = ids ∧
        ∀ x ∈ ids, ∃ v, lookupKey m x = some v ∧ fetchOne x = .ok v) := by
  constructor
  · intro x hx e he
    obtain ⟨e2, hmap, y, hy, hfy⟩ :=
      mapExcept_error_of_mem fetchOne ids x e hx he
    refine ⟨e2, ?_, y, hy, hfy⟩
    simp [get_contracts_ticker, hmap, Bind.bind, Except.bind]
  · intro hall
    obtain ⟨vs, hm, hf2⟩ := mapExcept_ok_forall2 fetchOne ids hall
    refine ⟨ids.zip vs, ?_, ?_, ?_⟩
    · simp [get_contracts_ticker, hm, Bind.bind, Except.bind, Pure.pure,
        Except.pure]
    · exact List.map_fst_zip ids vs (le_of_eq hf2.length_eq)
    · intro x hx
      exact lookupKey_zip hf2 hnd x hx

/-- A concrete ticker and single-fetch function: the fetch for id 2
fails, every other id succeeds. -/
def tickerSample : ContractTicker where
  ask := ⟨0, 0⟩
  bid := ⟨0, 0⟩
  volume_24h := 0
  last_trade := none
  time := (0 : Int)

def fetchSample : Nat → Except FTXDerivativesError ContractTicker :=
  fun i => if i = 2 then .error .reqwestError else .ok tickerSample

/-- A single-fetch function that succeeds on every id. -/
def fetchOkSample : Nat → Except FTXDerivativesError ContractTicker :=
  fun _ => .ok tickerSample

/-- Witness for C7 at the id list `[1, 2]`: with `fetchSample` (id 2
fails) the whole batch fails; with `fetchOkSample` the batch returns the
full map. -/
theorem C7_witness :
    (∃ e2, get_contracts_ticker fetchSample [1, 2] = .error e2 ∧
      ∃ y ∈ [1, 2], fetchSample y = .error e2) ∧
    (∃ m, get_contracts_ticker fetchOkSample [1, 2] = .ok m ∧
      m.map Prod.fst = [1, 2] ∧
      ∀ x ∈ [1, 2], ∃ v, lookupKey m x = some v ∧ fetchOkSample x = .ok v) :=
  ⟨(C7_batch_all_or_nothing fetchSample [1, 2] (by decide)).1
      2 (by decide) .reqwestError (by decide),
   (C7_batch_all_or_nothing fetchOkSample [1, 2] (by decide)).2
      (fun x _ => ⟨tickerSample, rfl⟩)⟩
